import Mathlib

/-!
Verification of the Keyboard Warrior real-time multiplayer session
orchestrator (server.js): room lifecycle, matchmaking, score
synchronization, disconnect/forfeit resolution and match-result
aggregation, shallowly embedded as pure functions over an explicit
server state.  JS `Map`s and plain objects used as dictionaries are
modelled as association lists with set-or-append update semantics;
`socket.emit` / `io.to(room).emit` calls are recorded in an ordered
log of outbound events; `Date.now()` is an explicit `now : Nat`
parameter; socket liveness (`io.sockets.sockets.get(...)?.connected`)
is an explicit `live : Nat → Bool` parameter; the random room code is
an explicit `newCode` parameter.
-/

set_option linter.unusedVariables false

/-- `GAME_DURATION = 60` seconds per game. -/
def GAME_DURATION : Nat := 60

/-- Matchmaking wait timeout: `5 * 60 * 1000` milliseconds. -/
def MM_TIMEOUT_MS : Nat := 5 * 60 * 1000

/-- Room phase: `'waiting' | 'playing' | 'finished'`. -/
inductive Status where
  | waiting
  | playing
  | finished
deriving DecidableEq, Repr

/-- A player record `{ socketId, username }` as stored in `room.players`. -/
structure Player where
  socketId : Nat
  username : String
deriving DecidableEq, Repr

/-- A `playerSockets` entry `{ socketId, username, roomCode }`. -/
structure PlayerConn where
  socketId : Nat
  username : String
  roomCode : Option String
deriving DecidableEq, Repr

/-- A matchmaking queue entry `{ socketId, username, joinedAt }`. -/
structure MMEntry where
  socketId : Nat
  username : String
  joinedAt : Nat
deriving DecidableEq, Repr

/-- One entry of a results list: `{ username, score, disconnected }`
(`disconnected` is only set on the forfeit path). -/
structure ResultEntry where
  username : String
  score : Nat
  disconnected : Bool
deriving DecidableEq, Repr

/-- A user's persisted stats object. -/
structure Stats where
  gamesPlayed : Nat
  wins : Nat
  losses : Nat
  draws : Nat
  totalScore : Nat
  highScore : Nat
  winRate : Rat
deriving DecidableEq, Repr

/-- Stats of a freshly registered user. -/
def freshStats : Stats :=
  { gamesPlayed := 0, wins := 0, losses := 0, draws := 0,
    totalScore := 0, highScore := 0, winRate := 0 }

/-- A match-history entry as appended by `saveMatch`. -/
structure MatchRecord where
  roomCode : String
  players : List String
  results : List ResultEntry
  isDraw : Bool
  winner : Option String
  startTime : Option Nat
  endTime : Nat
  duration : Nat
deriving DecidableEq, Repr

/-- Outbound server→client events (`socket.emit` / `io.to(...).emit`). -/
inductive Emit where
  | errorTo (sid : Nat) (msg : String)
  | authenticated (sid : Nat)
  | roomCreated (sid : Nat) (code : String) (players : List Player)
  | playerJoinedEv (code : String) (players : List Player) (full : Bool)
  | rejoinedRoom (sid : Nat) (code : String) (players : List Player) (status : Status)
  | playerLeft (code : String) (players : List Player)
  | searching (sid : Nat) (position : Nat)
  | matchFound (code : String) (players : List Player)
  | matchmakingTimeout (sid : Nat)
  | matchmakingCancelled (sid : Nat)
  | gameStarting (code : String) (players : List Player)
  | gameStarted (code : String)
  | timerUpdate (code : String) (timeRemaining : Nat)
  | scoresUpdate (code : String) (scores : List (String × Nat))
  | gameOver (code : String) (results : List ResultEntry)
      (winner : Option ResultEntry) (isDraw : Bool)
  | opponentDisconnected (code : String) (results : List ResultEntry)
      (winner : ResultEntry)
deriving DecidableEq, Repr

/-- Association-list read: first binding of the key (JS `Map.get` /
object property read; keys are unique by construction). -/
def getA {κ α : Type} [DecidableEq κ] : List (κ × α) → κ → Option α
  | [], _ => none
  | (k', v) :: rest, k => if k' = k then some v else getA rest k

/-- Association-list write: replace the first binding of the key in
place, or append a new binding (JS `Map.set` / property assignment). -/
def setA {κ α : Type} [DecidableEq κ] : List (κ × α) → κ → α → List (κ × α)
  | [], k, v => [(k, v)]
  | (k', v') :: rest, k, v =>
    if k' = k then (k, v) :: rest else (k', v') :: setA rest k v

/-- Association-list delete (JS `Map.delete`). -/
def delA {κ α : Type} [DecidableEq κ] : List (κ × α) → κ → List (κ × α)
  | [], _ => []
  | (k', v') :: rest, k => if k' = k then rest else (k', v') :: delA rest k

/-- A `GameRoom` instance.  `timerActive`/`timeRemaining` model the
`timerInterval` handle and countdown; `readyPlayers` models the
`Set` attached during the rejoin handshake. -/
structure GameRoom where
  roomCode : String
  host : Player
  players : List Player
  maxPlayers : Nat
  status : Status
  gameStartTime : Option Nat
  scores : List (String × Nat)
  readyPlayers : List String
  timerActive : Bool
  timeRemaining : Nat
deriving DecidableEq, Repr

/-- `new GameRoom(roomCode, host)`: one player (the host), phase
`waiting`, empty scores object, no timer. -/
def mkGameRoom (roomCode : String) (host : Player) : GameRoom :=
  { roomCode := roomCode, host := host, players := [host], maxPlayers := 2,
    status := .waiting, gameStartTime := none, scores := [],
    readyPlayers := [], timerActive := false, timeRemaining := GAME_DURATION }

/-- `room.isFull()`. -/
def GameRoom.isFull (r : GameRoom) : Bool :=
  r.players.length ≥ r.maxPlayers

/-- `room.addPlayer(player)`: push the player and zero their score
entry when below capacity and still waiting; otherwise no change. -/
def GameRoom.addPlayer (r : GameRoom) (p : Player) : GameRoom :=
  if r.players.length < r.maxPlayers ∧ r.status = .waiting then
    { r with players := r.players ++ [p], scores := setA r.scores p.username 0 }
  else r

/-- `room.removePlayer(socketId)`: filter the player out by socket id
(score entries are left behind). -/
def GameRoom.removePlayer (r : GameRoom) (sid : Nat) : GameRoom :=
  { r with players := r.players.filter (fun p => p.socketId ≠ sid) }

/-- `room.updateScore(username, score)`. -/
def GameRoom.setScore (r : GameRoom) (username : String) (score : Nat) : GameRoom :=
  { r with scores := setA r.scores username score }

/-- Insertion step of the stable descending sort used by
`getResults` (`sort((a, b) => b.score - a.score)`). -/
def insertDesc (x : ResultEntry) : List ResultEntry → List ResultEntry
  | [] => [x]
  | y :: rest => if y.score > x.score then y :: insertDesc x rest else x :: y :: rest

/-- Stable sort of result entries by score, descending. -/
def sortDesc : List ResultEntry → List ResultEntry
  | [] => []
  | x :: rest => insertDesc x (sortDesc rest)

/-- `room.getResults()`: each player with their score
(`this.scores[p.username] || 0`), sorted by score descending. -/
def GameRoom.getResults (r : GameRoom) : List ResultEntry :=
  sortDesc (r.players.map (fun p =>
    { username := p.username, score := (getA r.scores p.username).getD 0,
      disconnected := false }))

/-- `x.toFixed(2)` on the win-rate value, modelled exactly over `Rat`:
round to 2 decimals, ties away from zero (toward the larger digit). -/
def toFixed2 (q : Rat) : Rat :=
  ((q * 100 + 1 / 2).floor : Rat) / 100

/-- The per-user body of `updateUserStats`: increment `gamesPlayed` and
`totalScore`, credit exactly one of draw/win/loss (`isDraw`, else
winner at index 0, else loser), raise `highScore`, then recompute
`winRate = wins / (gamesPlayed - draws) * 100` rounded to 2 decimals,
or `0` when the denominator is not positive. -/
def statStep (res : ResultEntry) (idx : Nat) (isDraw : Bool) (s : Stats) : Stats :=
  let s1 : Stats :=
    { s with gamesPlayed := s.gamesPlayed + 1, totalScore := s.totalScore + res.score }
  let s2 : Stats :=
    if isDraw then { s1 with draws := s1.draws + 1 }
    else if idx = 0 then { s1 with wins := s1.wins + 1 }
    else { s1 with losses := s1.losses + 1 }
  let s3 : Stats :=
    if res.score > s2.highScore then { s2 with highScore := res.score } else s2
  let denom : Nat := s3.gamesPlayed - s3.draws
  { s3 with winRate :=
      if 0 < denom then toFixed2 ((s3.wins : Rat) * 100 / (denom : Rat)) else 0 }

/-- One iteration of the `results.forEach` in `updateUserStats`: a
missing user record is skipped. -/
def applyResult (db : List (String × Stats)) (res : ResultEntry) (idx : Nat)
    (isDraw : Bool) : List (String × Stats) :=
  match getA db res.username with
  | none => db
  | some s => setA db res.username (statStep res idx isDraw s)

/-- The `forEach` loop of `updateUserStats`, carrying the entry index. -/
def updateAux : List (String × Stats) → List ResultEntry → Nat → Bool →
    List (String × Stats)
  | db, [], _, _ => db
  | db, r :: rest, idx, isDraw => updateAux (applyResult db r idx isDraw) rest (idx + 1) isDraw

/-- `updateUserStats(results, isDraw = false)`: read the users store,
fold the per-result update over it, write it back. -/
def updateUserStats (db : List (String × Stats)) (results : List ResultEntry)
    (isDraw : Bool) : List (String × Stats) :=
  updateAux db results 0 isDraw

/-- The record appended by `saveMatch(room, results, isDraw)`. -/
def mkMatchRecord (room : GameRoom) (results : List ResultEntry) (isDraw : Bool)
    (now : Nat) : MatchRecord :=
  { roomCode := room.roomCode,
    players := room.players.map (fun p => p.username),
    results := results,
    isDraw := isDraw,
    winner := if isDraw then none else results.head?.map (fun r => r.username),
    startTime := room.gameStartTime,
    endTime := now,
    duration := now - room.gameStartTime.getD 0 }

/-- The whole in-memory server state: `activeRooms`, `playerSockets`,
`matchmakingQueue`, the users store, the match log, the set of pending
4-second "start clock" callbacks (by room code), and the log of
outbound events. -/
structure ServerState where
  activeRooms : List (String × GameRoom)
  playerSockets : List (Nat × PlayerConn)
  matchmakingQueue : List MMEntry
  users : List (String × Stats)
  matchLog : List MatchRecord
  scheduledStarts : List String
  emitted : List Emit
deriving DecidableEq, Repr

/-- Append one outbound event to the log. -/
def emitTo (st : ServerState) (e : Emit) : ServerState :=
  { st with emitted := st.emitted ++ [e] }

/-- `socket.on('authenticate')`. -/
def onAuthenticate (st : ServerState) (sid : Nat) (username : String) : ServerState :=
  let conns := setA st.playerSockets sid ⟨sid, username, none⟩
  emitTo { st with playerSockets := conns } (.authenticated sid)

/-- `socket.on('createRoom')`: the host record is the existing
`playerSockets` entry when present, else a fresh one. -/
def onCreateRoom (st : ServerState) (sid : Nat) (username : String)
    (newCode : String) : ServerState :=
  let conn : PlayerConn :=
    match getA st.playerSockets sid with
    | some c => c
    | none => { socketId := sid, username := username, roomCode := none }
  let host : Player := { socketId := conn.socketId, username := conn.username }
  let room := mkGameRoom newCode host
  emitTo
    { st with activeRooms := setA st.activeRooms newCode room,
              playerSockets := setA st.playerSockets sid { conn with roomCode := some newCode } }
    (.roomCreated sid newCode room.players)

/-- `socket.on('joinRoom')`: `Room not found` / `Game already started` /
`Room is full`, checked in that order; otherwise add the player and
broadcast `playerJoined` to the whole room. -/
def onJoinRoom (st : ServerState) (sid : Nat) (roomCode : String)
    (username : String) : ServerState :=
  match getA st.activeRooms roomCode with
  | none => emitTo st (.errorTo sid "Room not found")
  | some room =>
    if room.status ≠ .waiting then emitTo st (.errorTo sid "Game already started")
    else if room.isFull then emitTo st (.errorTo sid "Room is full")
    else
      let player : Player := { socketId := sid, username := username }
      let room' := room.addPlayer player
      emitTo
        { st with activeRooms := setA st.activeRooms roomCode room',
                  playerSockets := setA st.playerSockets sid
                    { socketId := sid, username := username, roomCode := some roomCode } }
        (.playerJoinedEv roomCode room'.players room'.isFull)

/-- Update the socket id of the first player record with the given
username (the in-place mutation of `existingPlayer.socketId`). -/
def updFirstSocket : List Player → String → Nat → List Player
  | [], _, _ => []
  | p :: rest, u, sid =>
    if p.username = u then { p with socketId := sid } :: rest
    else p :: updFirstSocket rest u sid

/-- Add a username to the `readyPlayers` set. -/
def addReady (l : List String) (u : String) : List String :=
  if u ∈ l then l else l ++ [u]

/-- `socket.on('rejoinRoom')`: re-bind (or add) the player, mark them
ready, and when at least 2 distinct usernames are ready while the room
is still waiting, perform the `waiting → playing` transition (reset
scores, broadcast `gameStarting`, schedule the delayed clock start). -/
def onRejoinRoom (st : ServerState) (sid : Nat) (roomCode : String)
    (username : String) (now : Nat) : ServerState :=
  match getA st.activeRooms roomCode with
  | none => emitTo st (.errorTo sid "Room not found")
  | some room =>
    let room1 : GameRoom :=
      if room.players.any (fun p => p.username = username) then
        { room with players := updFirstSocket room.players username sid }
      else
        { room with players := room.players ++ [{ socketId := sid, username := username }] }
    let room2 : GameRoom := { room1 with readyPlayers := addReady room1.readyPlayers username }
    let st1 :=
      emitTo
        { st with activeRooms := setA st.activeRooms roomCode room2,
                  playerSockets := setA st.playerSockets sid
                    { socketId := sid, username := username, roomCode := some roomCode } }
        (.rejoinedRoom sid roomCode room2.players room2.status)
    if room2.readyPlayers.length ≥ 2 ∧ room2.status = .waiting then
      let room3 : GameRoom :=
        { room2 with status := .playing, gameStartTime := some now,
                     scores := room2.players.foldl (fun sc p => setA sc p.username 0) room2.scores }
      { st1 with activeRooms := setA st1.activeRooms roomCode room3,
                 emitted := st1.emitted ++ [.gameStarting roomCode room3.players],
                 scheduledStarts := st1.scheduledStarts ++ [roomCode] }
    else st1

/-- The eviction pass at the head of `socket.on('findMatch')`: drop
queue heads whose socket is no longer connected (silently) or whose
wait exceeds the 5-minute timeout (notifying them with
`matchmakingTimeout`), until a surviving head or an empty queue. -/
def evictLoop (live : Nat → Bool) (now : Nat) : List MMEntry → List MMEntry × List Emit
  | [] => ([], [])
  | e :: rest =>
    if live e.socketId = false then evictLoop live now rest
    else if now - e.joinedAt > MM_TIMEOUT_MS then
      let r := evictLoop live now rest
      (r.1, Emit.matchmakingTimeout e.socketId :: r.2)
    else (e :: rest, [])

/-- `socket.on('findMatch')`: after the eviction pass, match the
requester with the surviving head (double-checking that head's socket
before committing, re-queueing the requester if it went stale), or
enqueue the requester and report its position.  Returns the updated
state together with the queue entry that was matched, if any. -/
def onFindMatch (st : ServerState) (sid : Nat) (username : String) (now : Nat)
    (live : Nat → Bool) (newCode : String) : ServerState × Option MMEntry :=
  let player : MMEntry := { socketId := sid, username := username, joinedAt := now }
  let ev := evictLoop live now st.matchmakingQueue
  let st1 : ServerState := { st with matchmakingQueue := ev.1, emitted := st.emitted ++ ev.2 }
  match ev.1 with
  | [] =>
    (emitTo { st1 with matchmakingQueue := [player] } (.searching sid 1), none)
  | p1 :: rest =>
    if live p1.socketId = false then
      (emitTo { st1 with matchmakingQueue := rest ++ [player] }
        (.searching sid (rest.length + 1)), none)
    else
      let host : Player := { socketId := p1.socketId, username := p1.username }
      let room := (mkGameRoom newCode host).addPlayer { socketId := sid, username := username }
      if live p1.socketId ∧ live sid then
        let conn1 : PlayerConn :=
          match getA st1.playerSockets p1.socketId with
          | some c => { c with roomCode := some newCode }
          | none => { socketId := p1.socketId, username := p1.username, roomCode := some newCode }
        let conn2 : PlayerConn :=
          match getA st1.playerSockets sid with
          | some c => { c with roomCode := some newCode }
          | none => { socketId := sid, username := username, roomCode := some newCode }
        ({ st1 with matchmakingQueue := rest,
                    activeRooms := setA st1.activeRooms newCode { room with readyPlayers := [] },
                    playerSockets := setA (setA st1.playerSockets p1.socketId conn1) sid conn2,
                    emitted := st1.emitted ++ [.matchFound newCode room.players] }, some p1)
      else
        (emitTo { st1 with matchmakingQueue := rest ++ [player] }
          (.searching sid (rest.length + 1)), none)

/-- Remove the first queue entry of a socket (`findIndex` + `splice`). -/
def removeFirstQueueEntry : List MMEntry → Nat → List MMEntry
  | [], _ => []
  | e :: rest, sid =>
    if e.socketId = sid then rest else e :: removeFirstQueueEntry rest sid

/-- `socket.on('cancelMatchmaking')`. -/
def onCancelMatchmaking (st : ServerState) (sid : Nat) : ServerState :=
  if st.matchmakingQueue.any (fun e => e.socketId = sid) then
    emitTo { st with matchmakingQueue := removeFirstQueueEntry st.matchmakingQueue sid }
      (.matchmakingCancelled sid)
  else st

/-- `socket.on('startGame')`: `Room not found` / `Game already
started` / `Need 2 players to start`, then the `waiting → playing`
transition: set phase and start time, zero every current player's
score entry, broadcast `gameStarting`, and schedule the 4-second
delayed clock-start callback.  No host or membership check. -/
def onStartGame (st : ServerState) (sid : Nat) (roomCode : String) (now : Nat) :
    ServerState :=
  match getA st.activeRooms roomCode with
  | none => emitTo st (.errorTo sid "Room not found")
  | some room =>
    if room.status ≠ .waiting then emitTo st (.errorTo sid "Game already started")
    else if room.players.length < 2 then emitTo st (.errorTo sid "Need 2 players to start")
    else
      let room' : GameRoom :=
        { room with status := .playing, gameStartTime := some now,
                    scores := room.players.foldl (fun sc p => setA sc p.username 0) room.scores }
      { st with activeRooms := setA st.activeRooms roomCode room',
                emitted := st.emitted ++ [.gameStarting roomCode room'.players],
                scheduledStarts := st.scheduledStarts ++ [roomCode] }

/-- Write-back helper for the delayed callback: the callback holds a
direct reference to the room object, so its mutations are visible
through the registry only while the room is still registered. -/
def setIfPresent {κ α : Type} [DecidableEq κ] (l : List (κ × α)) (k : κ) (v : α) :
    List (κ × α) :=
  if (getA l k).isSome then setA l k v else l

/-- The body of the `setTimeout(..., 4000)` scheduled by `startGame` /
`rejoinRoom`, fired with the captured room object: it checks only
`room.status === 'playing'` on that captured object — it does not
re-check `activeRooms` — then broadcasts `gameStarted` and starts the
per-room clock. -/
def delayedStartCallback (st : ServerState) (captured : GameRoom) : ServerState :=
  if captured.status = .playing then
    let started : GameRoom :=
      { captured with timerActive := true, timeRemaining := GAME_DURATION }
    { st with emitted := st.emitted ++ [.gameStarted captured.roomCode],
              activeRooms := setIfPresent st.activeRooms captured.roomCode started }
  else st

/-- `endGame(roomCode)`: bail out when the room is gone or already
finished; otherwise mark it finished, stop the clock, compute sorted
results, the draw flag (top two scores equal among ≥ 2 entries) and
the winner, aggregate stats, append the match record, and broadcast
`gameOver`.  (The delayed registry cleanup is `cleanupRoom`.) -/
def isDrawOf (results : List ResultEntry) : Bool :=
  match results with
  | r0 :: r1 :: _ => r0.score == r1.score
  | _ => false

/-- See `isDrawOf`; this is the terminal clock-expiry transition. -/
def endGame (st : ServerState) (roomCode : String) (now : Nat) : ServerState :=
  match getA st.activeRooms roomCode with
  | none => st
  | some room =>
    if room.status = .finished then st
    else
      let room' : GameRoom := { room with status := .finished, timerActive := false }
      let results := room'.getResults
      let isDraw := isDrawOf results
      let winner : Option ResultEntry := if isDraw then none else results.head?
      { st with
        activeRooms := setA st.activeRooms roomCode room',
        users := updateUserStats st.users results isDraw,
        matchLog := st.matchLog ++ [mkMatchRecord room' results isDraw now],
        emitted := st.emitted ++ [.gameOver roomCode results winner isDraw] }

/-- The delayed room deletion scheduled after a match ends. -/
def cleanupRoom (st : ServerState) (roomCode : String) : ServerState :=
  { st with activeRooms := delA st.activeRooms roomCode }

/-- One tick of the per-room clock: decrement, broadcast `timerUpdate`,
and at zero stop the timer and run `endGame`. -/
def clockTick (st : ServerState) (roomCode : String) (now : Nat) : ServerState :=
  match getA st.activeRooms roomCode with
  | none => st
  | some room =>
    if room.timerActive then
      let room' : GameRoom := { room with timeRemaining := room.timeRemaining - 1 }
      let st1 :=
        emitTo { st with activeRooms := setA st.activeRooms roomCode room' }
          (.timerUpdate roomCode room'.timeRemaining)
      if room'.timeRemaining = 0 then
        let stopped := setA st1.activeRooms roomCode { room' with timerActive := false }
        endGame { st1 with activeRooms := stopped } roomCode now
      else st1
    else st

/-- `socket.on('updateScore')`: only when the room exists, the socket
is bound, and the phase is `playing`; overwrite the caller's score and
broadcast the full score map; otherwise silently ignore. -/
def onUpdateScore (st : ServerState) (sid : Nat) (roomCode : String) (score : Nat) :
    ServerState :=
  match getA st.activeRooms roomCode, getA st.playerSockets sid with
  | some room, some conn =>
    if room.status = .playing then
      let room' := room.setScore conn.username score
      emitTo { st with activeRooms := setA st.activeRooms roomCode room' }
        (.scoresUpdate roomCode room'.scores)
    else st
  | _, _ => st

/-- `socket.on('gameFinished')`: record the caller's final score
unconditionally (any phase); never triggers termination. -/
def onGameFinished (st : ServerState) (sid : Nat) (roomCode : String)
    (finalScore : Nat) : ServerState :=
  match getA st.activeRooms roomCode, getA st.playerSockets sid with
  | some room, some conn =>
    { st with activeRooms := setA st.activeRooms roomCode (room.setScore conn.username finalScore) }
  | _, _ => st

/-- `handlePlayerLeave(socket, roomCode)`: if the room is `playing`
with exactly 2 players, resolve an immediate forfeit (remaining player
wins with their current score, leaver scores 0 tagged `disconnected`,
stats updated, match saved, `opponentDisconnected` broadcast);
otherwise remove the player, deleting the room when it empties or
broadcasting `playerLeft` when not. -/
def handlePlayerLeave (st : ServerState) (sid : Nat) (roomCode : String) (now : Nat) :
    ServerState :=
  match getA st.activeRooms roomCode with
  | none => st
  | some room =>
    if room.status = .playing ∧ room.players.length = 2 then
      let room1 : GameRoom := { room with timerActive := false, status := .finished }
      let leavingName : String :=
        match getA st.playerSockets sid with
        | some conn => conn.username
        | none => "Opponent"
      match room.players.find? (fun p => p.socketId ≠ sid) with
      | some remaining =>
        let winnerScore : Nat := (getA room1.scores remaining.username).getD 0
        let room2 : GameRoom := room1.setScore leavingName 0
        let results : List ResultEntry :=
          [{ username := remaining.username, score := winnerScore, disconnected := false },
           { username := leavingName, score := 0, disconnected := true }]
        { st with
          activeRooms := setA st.activeRooms roomCode room2,
          users := updateUserStats st.users results false,
          matchLog := st.matchLog ++ [mkMatchRecord room2 results false now],
          emitted := st.emitted ++
            [.opponentDisconnected roomCode results
              { username := remaining.username, score := winnerScore, disconnected := false }] }
      | none =>
        { st with activeRooms := setA st.activeRooms roomCode room1 }
    else
      let room' := room.removePlayer sid
      if room'.players.length = 0 then
        { st with activeRooms := delA st.activeRooms roomCode }
      else
        { st with activeRooms := setA st.activeRooms roomCode room',
                  emitted := st.emitted ++ [.playerLeft roomCode room'.players] }

/-- `socket.on('leaveRoom')`: routes straight to the unified leave
handler (and nothing else). -/
def onLeaveRoom (st : ServerState) (sid : Nat) (roomCode : String) (now : Nat) :
    ServerState :=
  handlePlayerLeave st sid roomCode now

/-- `socket.on('disconnect')`: when the socket is bound, purge its
first matchmaking-queue entry, route to the unified leave handler if
it was in a room, and unbind it. -/
def onDisconnect (st : ServerState) (sid : Nat) (now : Nat) : ServerState :=
  match getA st.playerSockets sid with
  | none => st
  | some conn =>
    let st1 : ServerState :=
      { st with matchmakingQueue := removeFirstQueueEntry st.matchmakingQueue sid }
    let st2 : ServerState :=
      match conn.roomCode with
      | some rc => handlePlayerLeave st1 sid rc now
      | none => st1
    { st2 with playerSockets := delA st2.playerSockets sid }

/-! ## Association-list lemmas -/

theorem getA_setA_self {κ α : Type} [DecidableEq κ] (l : List (κ × α)) (k : κ) (v : α) :
    getA (setA l k v) k = some v := by
  induction l with
  | nil => simp [setA, getA]
  | cons hd tl ih =>
    obtain ⟨k', v'⟩ := hd
    by_cases h : k' = k
    · simp [setA, h, getA]
    · simp [setA, h, getA, ih]

theorem getA_setA_ne {κ α : Type} [DecidableEq κ] (l : List (κ × α)) (k : κ) (v : α)
    (k2 : κ) (h : k ≠ k2) : getA (setA l k v) k2 = getA l k2 := by
  induction l with
  | nil => simp [setA, getA, h]
  | cons hd tl ih =>
    obtain ⟨k', v'⟩ := hd
    by_cases hk : k' = k
    · subst hk
      simp [setA, getA, h]
    · simp [setA, hk, getA, ih]

theorem getA_setA_cases {κ α : Type} [DecidableEq κ] (l : List (κ × α)) (k : κ) (v : α)
    (u : κ) (s : α) (h : getA (setA l k v) u = some s) :
    s = v ∨ getA l u = some s := by
  by_cases hk : k = u
  · subst hk
    rw [getA_setA_self] at h
    exact Or.inl (Option.some_injective _ h).symm
  · rw [getA_setA_ne l k v u hk] at h
    exact Or.inr h

/-! ## Stats-aggregation lemmas -/

theorem statStep_gamesPlayed (r : ResultEntry) (i : Nat) (d : Bool) (s : Stats) :
    (statStep r i d s).gamesPlayed = s.gamesPlayed + 1 := by
  unfold statStep
  cases d <;> by_cases hi : i = 0 <;>
    by_cases hh : r.score > s.highScore <;> simp [hi, hh]

theorem statStep_draws (r : ResultEntry) (i : Nat) (d : Bool) (s : Stats) :
    (statStep r i d s).draws = if d then s.draws + 1 else s.draws := by
  unfold statStep
  cases d <;> by_cases hi : i = 0 <;>
    by_cases hh : r.score > s.highScore <;> simp [hi, hh]

theorem statStep_wins (r : ResultEntry) (i : Nat) (d : Bool) (s : Stats) :
    (statStep r i d s).wins = if d = false ∧ i = 0 then s.wins + 1 else s.wins := by
  unfold statStep
  cases d <;> by_cases hi : i = 0 <;>
    by_cases hh : r.score > s.highScore <;> simp [hi, hh]

theorem statStep_losses (r : ResultEntry) (i : Nat) (d : Bool) (s : Stats) :
    (statStep r i d s).losses = if d = false ∧ i ≠ 0 then s.losses + 1 else s.losses := by
  unfold statStep
  cases d <;> by_cases hi : i = 0 <;>
    by_cases hh : r.score > s.highScore <;> simp [hi, hh]

theorem getA_applyResult_self (db : List (String × Stats)) (r : ResultEntry)
    (i : Nat) (d : Bool) :
    getA (applyResult db r i d) r.username = (getA db r.username).map (statStep r i d) := by
  unfold applyResult
  cases h : getA db r.username with
  | none => simp [h]
  | some s => simp [h, getA_setA_self]

theorem getA_applyResult_ne (db : List (String × Stats)) (r : ResultEntry)
    (i : Nat) (d : Bool) (u : String) (h : u ≠ r.username) :
    getA (applyResult db r i d) u = getA db u := by
  unfold applyResult
  cases hh : getA db r.username with
  | none => rfl
  | some s => simp [getA_setA_ne _ _ _ _ (Ne.symm h)]

theorem updateAux_frame (results : List ResultEntry) (db : List (String × Stats))
    (i : Nat) (d : Bool) (u : String) (h : ∀ r ∈ results, r.username ≠ u) :
    getA (updateAux db results i d) u = getA db u := by
  induction results generalizing db i with
  | nil => rfl
  | cons r rest ih =>
    show getA (updateAux (applyResult db r i d) rest (i + 1) d) u = getA db u
    rw [ih _ _ (fun x hx => h x (List.mem_cons_of_mem _ hx))]
    exact getA_applyResult_ne _ _ _ _ _ (Ne.symm (h r (List.mem_cons_self _ _)))

theorem updateUserStats_pair (db : List (String × Stats)) (x y : ResultEntry)
    (d : Bool) (hxy : x.username ≠ y.username) (sx sy : Stats)
    (hx : getA db x.username = some sx) (hy : getA db y.username = some sy) :
    getA (updateUserStats db [x, y] d) x.username = some (statStep x 0 d sx) ∧
    getA (updateUserStats db [x, y] d) y.username = some (statStep y 1 d sy) := by
  have hexp : updateUserStats db [x, y] d = applyResult (applyResult db x 0 d) y 1 d := rfl
  constructor
  · rw [hexp, getA_applyResult_ne _ _ _ _ _ hxy, getA_applyResult_self, hx]
    rfl
  · rw [hexp, getA_applyResult_self, getA_applyResult_ne _ _ _ _ _ (Ne.symm hxy), hy]
    rfl

theorem updateAux_get (results : List ResultEntry)
    (hnd : (results.map (fun r => r.username)).Nodup) (i : Nat) (hi : i < results.length)
    (db : List (String × Stats)) (idx : Nat) (d : Bool) :
    getA (updateAux db results idx d) (results.get ⟨i, hi⟩).username =
      (getA db (results.get ⟨i, hi⟩).username).map
        (statStep (results.get ⟨i, hi⟩) (idx + i) d) := by
  induction results generalizing i db idx with
  | nil => exact absurd hi (by simp)
  | cons r rest ih =>
    rw [List.map_cons, List.nodup_cons] at hnd
    cases i with
    | zero =>
      show getA (updateAux (applyResult db r idx d) rest (idx + 1) d) r.username = _
      have hfr : ∀ x ∈ rest, x.username ≠ r.username := by
        intro x hx
        exact fun he => hnd.1 (he ▸ List.mem_map_of_mem _ hx)
      rw [updateAux_frame rest _ _ _ _ hfr, getA_applyResult_self]
      rfl
    | succ j =>
      have hj : j < rest.length := Nat.lt_of_succ_lt_succ hi
      have hget : (r :: rest).get ⟨j + 1, hi⟩ = rest.get ⟨j, hj⟩ := rfl
      rw [hget]
      show getA (updateAux (applyResult db r idx d) rest (idx + 1) d)
        (rest.get ⟨j, hj⟩).username = _
      rw [ih hnd.2 j hj (applyResult db r idx d) (idx + 1)]
      have hne : (rest.get ⟨j, hj⟩).username ≠ r.username := by
        intro he
        exact hnd.1 (he ▸ List.mem_map_of_mem _ (rest.get_mem j hj))
      rw [getA_applyResult_ne _ _ _ _ _ hne]
      have harith : idx + 1 + j = idx + (j + 1) := by omega
      rw [harith]

/-! ## Win-rate invariant (claim C8) -/

/-- The stored win rate equals `wins / (gamesPlayed - draws) * 100`
rounded to 2 decimals, and `0` when the denominator is `0`. -/
def WinRateOK (s : Stats) : Prop :=
  s.winRate =
    if 0 < s.gamesPlayed - s.draws then
      toFixed2 ((s.wins : Rat) * 100 / ((s.gamesPlayed - s.draws : Nat) : Rat))
    else 0

instance (s : Stats) : Decidable (WinRateOK s) := by
  unfold WinRateOK
  infer_instance

theorem statStep_winRateOK (r : ResultEntry) (i : Nat) (d : Bool) (s : Stats) :
    WinRateOK (statStep r i d s) := by
  unfold WinRateOK statStep
  rfl

theorem applyResult_winRateOK (db : List (String × Stats)) (r : ResultEntry)
    (i : Nat) (d : Bool) (h : ∀ u s, getA db u = some s → WinRateOK s) :
    ∀ u s, getA (applyResult db r i d) u = some s → WinRateOK s := by
  intro u s hs
  unfold applyResult at hs
  cases hg : getA db r.username with
  | none => rw [hg] at hs; exact h u s hs
  | some s0 =>
    rw [hg] at hs
    rcases getA_setA_cases _ _ _ _ _ hs with hv | hv
    · rw [hv]; exact statStep_winRateOK r i d s0
    · exact h u s hv

theorem updateAux_winRateOK (results : List ResultEntry) (db : List (String × Stats))
    (i : Nat) (d : Bool) (h : ∀ u s, getA db u = some s → WinRateOK s) :
    ∀ u s, getA (updateAux db results i d) u = some s → WinRateOK s := by
  induction results generalizing db i with
  | nil => exact h
  | cons r rest ih =>
    exact ih (applyResult db r i d) (i + 1) (applyResult_winRateOK db r i d h)

/-! ## Matchmaking eviction lemmas (claim C7) -/

theorem evictLoop_mem (live : Nat → Bool) (now : Nat) (l : List MMEntry) :
    ∀ x ∈ (evictLoop live now l).1, x ∈ l := by
  induction l with
  | nil => simp [evictLoop]
  | cons e rest ih =>
    intro x hx
    unfold evictLoop at hx
    by_cases h1 : live e.socketId = false
    · simp only [h1, if_true] at hx
      exact List.mem_cons_of_mem _ (ih x hx)
    · simp only [h1, if_false] at hx
      by_cases h2 : now - e.joinedAt > MM_TIMEOUT_MS
      · simp only [h2, if_true] at hx
        exact List.mem_cons_of_mem _ (ih x hx)
      · simp only [h2, if_false] at hx
        exact hx

theorem evictLoop_cons (live : Nat → Bool) (now : Nat) (e : MMEntry)
    (rest : List MMEntry) :
    evictLoop live now (e :: rest) =
      if live e.socketId = false then evictLoop live now rest
      else if now - e.joinedAt > MM_TIMEOUT_MS then
        ((evictLoop live now rest).1,
          Emit.matchmakingTimeout e.socketId :: (evictLoop live now rest).2)
      else (e :: rest, []) := rfl

theorem evictLoop_cons_dead (live : Nat → Bool) (now : Nat) (e : MMEntry)
    (rest : List MMEntry) (h : live e.socketId = false) :
    evictLoop live now (e :: rest) = evictLoop live now rest := by
  rw [evictLoop_cons, if_pos h]

theorem evictLoop_cons_stale (live : Nat → Bool) (now : Nat) (e : MMEntry)
    (rest : List MMEntry) (h1 : live e.socketId = true)
    (h2 : now - e.joinedAt > MM_TIMEOUT_MS) :
    evictLoop live now (e :: rest) =
      ((evictLoop live now rest).1,
        Emit.matchmakingTimeout e.socketId :: (evictLoop live now rest).2) := by
  rw [evictLoop_cons, if_neg (by rw [h1]; exact fun h => nomatch h), if_pos h2]

theorem evictLoop_through (live : Nat → Bool) (now : Nat) (pre post : List MMEntry)
    (e : MMEntry)
    (hpre : ∀ x ∈ pre, live x.socketId = false ∨ now - x.joinedAt > MM_TIMEOUT_MS)
    (he : now - e.joinedAt > MM_TIMEOUT_MS) (hlive : live e.socketId = true) :
    (evictLoop live now (pre ++ e :: post)).1 = (evictLoop live now post).1 ∧
    Emit.matchmakingTimeout e.socketId ∈ (evictLoop live now (pre ++ e :: post)).2 := by
  induction pre with
  | nil =>
    rw [List.nil_append, evictLoop_cons_stale live now e post hlive he]
    exact ⟨rfl, List.mem_cons_self _ _⟩
  | cons x pre ih =>
    have hx := hpre x (List.mem_cons_self _ _)
    have ihh := ih (fun y hy => hpre y (List.mem_cons_of_mem _ hy))
    rw [List.cons_append]
    by_cases hl : live x.socketId = false
    · rw [evictLoop_cons_dead live now x _ hl]
      exact ihh
    · have hstale : now - x.joinedAt > MM_TIMEOUT_MS := by
        rcases hx with hdead | hs
        · exact absurd hdead hl
        · exact hs
      have hlt : live x.socketId = true := by
        cases hxx : live x.socketId
        · exact absurd hxx hl
        · rfl
      rw [evictLoop_cons_stale live now x _ hlt hstale]
      exact ⟨ihh.1, List.mem_cons_of_mem _ ihh.2⟩

/-! ## Shape lemmas for the terminal transitions -/

theorem getResults_mark (room : GameRoom) :
    ({ room with status := .finished, timerActive := false } : GameRoom).getResults =
      room.getResults := rfl

theorem endGame_none (st : ServerState) (code : String) (now : Nat)
    (hr : getA st.activeRooms code = none) : endGame st code now = st := by
  simp only [endGame, hr]

theorem endGame_finished (st : ServerState) (code : String) (now : Nat)
    (room : GameRoom) (hr : getA st.activeRooms code = some room)
    (hs : room.status = .finished) : endGame st code now = st := by
  simp only [endGame, hr]
  rw [if_pos hs]

theorem endGame_eq (st : ServerState) (code : String) (now : Nat) (room : GameRoom)
    (hr : getA st.activeRooms code = some room) (hs : ¬ room.status = .finished) :
    endGame st code now =
      { st with
        activeRooms := setA st.activeRooms code
          ({ room with status := .finished, timerActive := false }),
        users := updateUserStats st.users room.getResults (isDrawOf room.getResults),
        matchLog := st.matchLog ++
          [mkMatchRecord ({ room with status := .finished, timerActive := false })
            room.getResults (isDrawOf room.getResults) now],
        emitted := st.emitted ++
          [.gameOver code room.getResults
            (if isDrawOf room.getResults then none else room.getResults.head?)
            (isDrawOf room.getResults)] } := by
  simp only [endGame, hr]
  rw [if_neg hs]
  rfl

theorem hpl_forfeit (st : ServerState) (sid : Nat) (code : String) (now : Nat)
    (room : GameRoom) (remaining : Player) (conn : PlayerConn)
    (hr : getA st.activeRooms code = some room)
    (hs : room.status = .playing) (h2 : room.players.length = 2)
    (hf : room.players.find? (fun p => p.socketId ≠ sid) = some remaining)
    (hc : getA st.playerSockets sid = some conn) :
    handlePlayerLeave st sid code now =
      { st with
        activeRooms := setA st.activeRooms code
          ({ room with
              timerActive := false, status := .finished,
              scores := setA room.scores conn.username 0 }),
        users := updateUserStats st.users
          [{ username := remaining.username,
             score := (getA room.scores remaining.username).getD 0, disconnected := false },
           { username := conn.username, score := 0, disconnected := true }] false,
        matchLog := st.matchLog ++
          [mkMatchRecord
            ({ room with
                timerActive := false, status := .finished,
                scores := setA room.scores conn.username 0 })
            [{ username := remaining.username,
               score := (getA room.scores remaining.username).getD 0, disconnected := false },
             { username := conn.username, score := 0, disconnected := true }] false now],
        emitted := st.emitted ++
          [.opponentDisconnected code
            [{ username := remaining.username,
               score := (getA room.scores remaining.username).getD 0, disconnected := false },
             { username := conn.username, score := 0, disconnected := true }]
            { username := remaining.username,
              score := (getA room.scores remaining.username).getD 0,
              disconnected := false }] } := by
  simp only [handlePlayerLeave, hr]
  rw [if_pos ⟨hs, h2⟩]
  simp only [hc, hf]
  rfl

theorem hpl_else (st : ServerState) (sid : Nat) (code : String) (now : Nat)
    (room : GameRoom) (hr : getA st.activeRooms code = some room)
    (hg : ¬ (room.status = .playing ∧ room.players.length = 2))
    (hne : ¬ (room.players.filter (fun p => p.socketId ≠ sid)).length = 0) :
    handlePlayerLeave st sid code now =
      { st with
        activeRooms := setA st.activeRooms code (room.removePlayer sid),
        emitted := st.emitted ++ [.playerLeft code (room.removePlayer sid).players] } := by
  simp only [handlePlayerLeave, hr]
  rw [if_neg hg]
  simp only [GameRoom.removePlayer]
  rw [if_neg hne]

theorem hpl_queue (st : ServerState) (sid : Nat) (code : String) (now : Nat) :
    (handlePlayerLeave st sid code now).matchmakingQueue = st.matchmakingQueue := by
  unfold handlePlayerLeave
  repeat' split
  all_goals try rfl
  all_goals dsimp only
  all_goals split <;> rfl

theorem onDisconnect_queue (st : ServerState) (sid : Nat) (now : Nat)
    (conn : PlayerConn) (h : getA st.playerSockets sid = some conn) :
    (onDisconnect st sid now).matchmakingQueue =
      removeFirstQueueEntry st.matchmakingQueue sid := by
  simp only [onDisconnect, h]
  cases hx : conn.roomCode with
  | none => rfl
  | some rc =>
    exact hpl_queue _ sid rc now

theorem foldl_zero_scores (l : List Player) (sc : List (String × Nat)) (u : String)
    (h : getA sc u = some 0 ∨ u ∈ l.map Player.username) :
    getA (l.foldl (fun s p => setA s p.username 0) sc) u = some 0 := by
  induction l generalizing sc with
  | nil =>
    rcases h with h0 | hm
    · exact h0
    · simp at hm
  | cons p tl ih =>
    show getA (tl.foldl (fun s p => setA s p.username 0) (setA sc p.username 0)) u = some 0
    by_cases hu : p.username = u
    · apply ih
      left
      rw [hu, getA_setA_self]
    · apply ih
      rcases h with h0 | hm
      · left
        rw [getA_setA_ne _ _ _ _ hu]
        exact h0
      · rw [List.map_cons, List.mem_cons] at hm
        rcases hm with he | hm
        · exact absurd he.symm hu
        · exact Or.inr hm

/-! ## Claim C9: joinRoom / startGame error contracts -/

/-- C9: `joinRoom` fails to the caller only with `Room not found` when
the code is not registered, `Game already started` when the phase is
not `waiting`, and `Room is full` at capacity, checked in that order
(a full non-waiting room reports `Game already started`); otherwise it
adds the player and broadcasts the updated membership to the whole
room.  `startGame` likewise fails with `Room not found`, `Game already
started`, or `Need 2 players to start` when the room has fewer than
2 players. -/
theorem joinRoom_startGame_error_contract
    (st : ServerState) (sid : Nat) (uname : String) (now : Nat)
    (c1 c2 c3 c4 : String) (r2 r3 r4 : GameRoom)
    (h1 : getA st.activeRooms c1 = none)
    (h2 : getA st.activeRooms c2 = some r2) (h2s : r2.status ≠ .waiting)
    (h3 : getA st.activeRooms c3 = some r3) (h3s : r3.status = .waiting)
    (h3f : r3.players.length ≥ r3.maxPlayers)
    (h4 : getA st.activeRooms c4 = some r4) (h4s : r4.status = .waiting)
    (h4n : r4.players.length < r4.maxPlayers) (h4l : r4.players.length < 2) :
    onJoinRoom st sid c1 uname = emitTo st (.errorTo sid "Room not found") ∧
    onJoinRoom st sid c2 uname = emitTo st (.errorTo sid "Game already started") ∧
    onJoinRoom st sid c3 uname = emitTo st (.errorTo sid "Room is full") ∧
    (onJoinRoom st sid c4 uname).activeRooms =
      setA st.activeRooms c4 (r4.addPlayer ⟨sid, uname⟩) ∧
    (r4.addPlayer ⟨sid, uname⟩).players = r4.players ++ [⟨sid, uname⟩] ∧
    (onJoinRoom st sid c4 uname).emitted =
      st.emitted ++ [.playerJoinedEv c4 (r4.addPlayer ⟨sid, uname⟩).players
        ((r4.addPlayer ⟨sid, uname⟩).isFull)] ∧
    onStartGame st sid c1 now = emitTo st (.errorTo sid "Room not found") ∧
    onStartGame st sid c2 now = emitTo st (.errorTo sid "Game already started") ∧
    onStartGame st sid c4 now = emitTo st (.errorTo sid "Need 2 players to start") := by
  have h2w : ¬ r2.status = .waiting := h2s
  have h3w : ¬ r3.status ≠ .waiting := fun hn => hn h3s
  have h3full : r3.isFull = true := by
    simp [GameRoom.isFull, h3f]
  have h4w : ¬ r4.status ≠ .waiting := fun hn => hn h4s
  have h4full : ¬ r4.isFull = true := by
    simp [GameRoom.isFull]
    omega
  refine ⟨?_, ?_, ?_, ?_, ?_, ?_, ?_, ?_, ?_⟩
  · simp only [onJoinRoom, h1]
  · simp only [onJoinRoom, h2]
    rw [if_pos h2s]
  · simp only [onJoinRoom, h3]
    rw [if_neg h3w, if_pos h3full]
  · simp only [onJoinRoom, h4]
    rw [if_neg h4w, if_neg h4full]
    rfl
  · unfold GameRoom.addPlayer
    rw [if_pos ⟨h4n, h4s⟩]
  · simp only [onJoinRoom, h4]
    rw [if_neg h4w, if_neg h4full]
    rfl
  · simp only [onStartGame, h1]
  · simp only [onStartGame, h2]
    rw [if_pos h2s]
  · simp only [onStartGame, h4]
    rw [if_neg h4w, if_pos h4l]

/-- Concrete state exercising every `joinRoom`/`startGame` branch. -/
def errRoomPlaying : GameRoom :=
  { roomCode := "FULLP1", host := ⟨1, "a"⟩, players := [⟨1, "a"⟩, ⟨2, "b"⟩],
    maxPlayers := 2, status := .playing, gameStartTime := some 3,
    scores := [("a", 0), ("b", 0)], readyPlayers := [], timerActive := true,
    timeRemaining := 60 }

/-- Concrete full waiting room. -/
def errRoomFull : GameRoom :=
  { roomCode := "WFULL1", host := ⟨3, "c"⟩, players := [⟨3, "c"⟩, ⟨4, "d"⟩],
    maxPlayers := 2, status := .waiting, gameStartTime := none,
    scores := [("d", 0)], readyPlayers := [], timerActive := false,
    timeRemaining := 60 }

/-- Concrete one-player waiting room. -/
def errRoomOpen : GameRoom :=
  { roomCode := "WOPEN1", host := ⟨5, "e"⟩, players := [⟨5, "e"⟩],
    maxPlayers := 2, status := .waiting, gameStartTime := none,
    scores := [], readyPlayers := [], timerActive := false,
    timeRemaining := 60 }

/-- Concrete server state for the error-contract witnesses. -/
def errSt : ServerState :=
  { activeRooms := [("FULLP1", errRoomPlaying), ("WFULL1", errRoomFull),
      ("WOPEN1", errRoomOpen)],
    playerSockets := [], matchmakingQueue := [], users := [], matchLog := [],
    scheduledStarts := [], emitted := [] }

/-- Witness for C9 at a concrete state: absent code, full waiting room,
and a one-player room all produce the specified errors. -/
theorem joinRoom_startGame_error_contract_witness :
    onJoinRoom errSt 9 "NOPE01" "zed" = emitTo errSt (.errorTo 9 "Room not found") ∧
    onJoinRoom errSt 9 "FULLP1" "zed" = emitTo errSt (.errorTo 9 "Game already started") ∧
    onJoinRoom errSt 9 "WFULL1" "zed" = emitTo errSt (.errorTo 9 "Room is full") ∧
    onStartGame errSt 9 "WOPEN1" 5 = emitTo errSt (.errorTo 9 "Need 2 players to start") := by
  have h := joinRoom_startGame_error_contract errSt 9 "zed" 5
    "NOPE01" "FULLP1" "WFULL1" "WOPEN1" errRoomPlaying errRoomFull errRoomOpen
    (by rfl) (by rfl) (by decide) (by rfl) (by rfl) (by decide)
    (by rfl) (by rfl) (by decide) (by decide)
  exact ⟨h.1, h.2.1, h.2.2.1, h.2.2.2.2.2.2.2.2⟩

/-! ## Claim C10: startGame performs no host or membership check -/

/-- C10: for an arbitrary sending connection `sid` — with no hypothesis
relating `sid` to the room's host or members — `startGame` on an
existing `waiting` room with 2 players transitions it to `playing`,
records the start time, resets every current player's score to 0,
broadcasts `gameStarting`, and schedules the delayed clock start. -/
theorem startGame_no_membership_check (st : ServerState) (sid : Nat) (code : String)
    (now : Nat) (room : GameRoom)
    (hr : getA st.activeRooms code = some room)
    (hw : room.status = .waiting) (hl : room.players.length = 2) :
    ∃ room', getA (onStartGame st sid code now).activeRooms code = some room' ∧
      room'.status = .playing ∧ room'.gameStartTime = some now ∧
      room'.players = room.players ∧
      (∀ p ∈ room.players, getA room'.scores p.username = some 0) ∧
      (onStartGame st sid code now).emitted =
        st.emitted ++ [.gameStarting code room.players] ∧
      (onStartGame st sid code now).scheduledStarts = st.scheduledStarts ++ [code] := by
  have hnw : ¬ room.status ≠ .waiting := fun hn => hn hw
  have hn2 : ¬ room.players.length < 2 := by omega
  simp only [onStartGame, hr]
  rw [if_neg hnw, if_neg hn2]
  refine ⟨_, getA_setA_self _ _ _, rfl, rfl, rfl, ?_, rfl, rfl⟩
  intro p hp
  exact foldl_zero_scores _ _ _ (Or.inr (List.mem_map_of_mem _ hp))

/-- Concrete waiting two-player room for the C10 witness. -/
def noCheckRoom : GameRoom :=
  { roomCode := "ROOMX1", host := ⟨1, "a"⟩, players := [⟨1, "a"⟩, ⟨2, "b"⟩],
    maxPlayers := 2, status := .waiting, gameStartTime := none,
    scores := [("b", 0)], readyPlayers := [], timerActive := false,
    timeRemaining := 60 }

/-- Concrete state for the C10 witness; socket 42 is not a member. -/
def noCheckSt : ServerState :=
  { activeRooms := [("ROOMX1", noCheckRoom)], playerSockets := [],
    matchmakingQueue := [], users := [], matchLog := [],
    scheduledStarts := [], emitted := [] }

/-- Witness for C10: socket 42, which is neither host nor member,
successfully starts the room. -/
theorem startGame_no_membership_check_witness :
    (getA (onStartGame noCheckSt 42 "ROOMX1" 7).activeRooms "ROOMX1").map
        GameRoom.status = some .playing ∧
    (onStartGame noCheckSt 42 "ROOMX1" 7).scheduledStarts = ["ROOMX1"] := by
  obtain ⟨r', hg, hs, _, _, _, _, hsch⟩ :=
    startGame_no_membership_check noCheckSt 42 "ROOMX1" 7 noCheckRoom
      (by rfl) (by rfl) (by rfl)
  constructor
  · rw [hg, Option.map_some', hs]
  · rw [hsch]
    rfl

/-! ## Claim C2: scores keys versus player usernames -/

/-- The empty initial server state. -/
def emptyServerState : ServerState :=
  { activeRooms := [], playerSockets := [], matchmakingQueue := [], users := [],
    matchLog := [], scheduledStarts := [], emitted := [] }

/-- Counterexample to C2: immediately after `createRoom`, the new room
holds the host in `players` but its `scores` object is empty, so the
key set of `scores` is not the set of current player usernames. -/
theorem scores_keys_counterexample :
    ∃ room, getA (onCreateRoom emptyServerState 1 "alice" "ABC123").activeRooms
        "ABC123" = some room ∧
      room.players.map Player.username = ["alice"] ∧
      room.scores.map Prod.fst = [] ∧
      room.scores.map Prod.fst ≠ room.players.map Player.username := by
  refine ⟨mkGameRoom "ABC123" ⟨1, "alice"⟩, ?_, rfl, rfl, by decide⟩
  rfl

/-- C2 as amended: what the code guarantees is weaker — at the
`waiting → playing` transition performed by `startGame`, every current
player's username is a key of `scores` mapped to 0; the key set may
strictly contain usernames of departed players, and before the
transition the host need not have a `scores` entry at all. -/
theorem scores_keys_amended (st : ServerState) (sid : Nat) (code : String)
    (now : Nat) (room : GameRoom)
    (hr : getA st.activeRooms code = some room)
    (hw : room.status = .waiting) (hl : ¬ room.players.length < 2) :
    ∃ room', getA (onStartGame st sid code now).activeRooms code = some room' ∧
      room'.players = room.players ∧
      ∀ p ∈ room'.players, getA room'.scores p.username = some 0 := by
  have hnw : ¬ room.status ≠ .waiting := fun hn => hn hw
  simp only [onStartGame, hr]
  rw [if_neg hnw, if_neg hl]
  refine ⟨_, getA_setA_self _ _ _, rfl, ?_⟩
  intro p hp
  exact foldl_zero_scores _ _ _ (Or.inr (List.mem_map_of_mem _ hp))

/-- Concrete room whose `scores` holds a stale key `"ghost"` of a
departed player, about to start with players `a`, `b`. -/
def staleScoreRoom : GameRoom :=
  { roomCode := "STALE0", host := ⟨1, "a"⟩, players := [⟨1, "a"⟩, ⟨2, "b"⟩],
    maxPlayers := 2, status := .waiting, gameStartTime := none,
    scores := [("ghost", 0), ("b", 0)], readyPlayers := [], timerActive := false,
    timeRemaining := 60 }

/-- Concrete state for the C2-amended witness. -/
def staleScoreSt : ServerState :=
  { activeRooms := [("STALE0", staleScoreRoom)], playerSockets := [],
    matchmakingQueue := [], users := [], matchLog := [],
    scheduledStarts := [], emitted := [] }

/-- Witness for the amended C2: after `startGame`, both current players
map to 0 in `scores`. -/
theorem scores_keys_amended_witness :
    (getA (onStartGame staleScoreSt 1 "STALE0" 7).activeRooms "STALE0").map
        (fun r => (getA r.scores "a", getA r.scores "b")) =
      some (some 0, some 0) := by
  obtain ⟨r', hg, hpl, hsc⟩ :=
    scores_keys_amended staleScoreSt 1 "STALE0" 7 staleScoreRoom
      (by rfl) (by rfl) (by decide)
  have ha : getA r'.scores "a" = some 0 := by
    refine hsc ⟨1, "a"⟩ ?_
    rw [hpl]
    exact List.mem_cons_self _ _
  have hb : getA r'.scores "b" = some 0 := by
    refine hsc ⟨2, "b"⟩ ?_
    rw [hpl]
    exact List.mem_cons_of_mem _ (List.mem_cons_self _ _)
  rw [hg, Option.map_some', ha, hb]

/-! ## Claim C5: the delayed clock-start callback -/

/-- A captured room object whose status is still `playing` after its
registry entry was deleted (reachable: the sole player of a playing
room leaves during the 4-second delay, which deletes the room without
touching `status`). -/
def staleCaptured : GameRoom :=
  { roomCode := "GONE01", host := ⟨1, "solo"⟩, players := [⟨1, "solo"⟩],
    maxPlayers := 2, status := .playing, gameStartTime := some 10,
    scores := [("solo", 0)], readyPlayers := ["solo", "left"], timerActive := false,
    timeRemaining := 60 }

/-- C5 (code divergence): the 4-second delayed callback checks only the
captured object's `status === 'playing'` and never re-checks the room
registry, so when the room has been deleted from `activeRooms` while
its `status` field still reads `playing`, the callback nevertheless
broadcasts `gameStarted` — it does not perform "no mutation and no
broadcast" as the claim requires. -/
theorem delayedStart_no_registry_check :
    getA emptyServerState.activeRooms "GONE01" = none ∧
    staleCaptured.status = .playing ∧
    (delayedStartCallback emptyServerState staleCaptured).emitted =
      [Emit.gameStarted "GONE01"] ∧
    delayedStartCallback emptyServerState staleCaptured ≠ emptyServerState := by
  refine ⟨rfl, rfl, rfl, ?_⟩
  decide

/-! ## Claim C6: leaveRoom routing and the matchmaking-queue purge -/

/-- Concrete waiting room for the C6 counterexample. -/
def leaveRoomC6 : GameRoom :=
  { roomCode := "R1AAAA", host := ⟨7, "bob"⟩, players := [⟨7, "bob"⟩, ⟨3, "al"⟩],
    maxPlayers := 2, status := .waiting, gameStartTime := none,
    scores := [("al", 0)], readyPlayers := [], timerActive := false,
    timeRemaining := 60 }

/-- Concrete state: socket 7 is both in room `R1AAAA` and in the
matchmaking queue. -/
def leaveStC6 : ServerState :=
  { activeRooms := [("R1AAAA", leaveRoomC6)],
    playerSockets := [(7, ⟨7, "bob", some "R1AAAA"⟩)],
    matchmakingQueue := [⟨7, "bob", 0⟩],
    users := [], matchLog := [], scheduledStarts := [], emitted := [] }

/-- Counterexample to C6: handling `leaveRoom` for socket 7 removes it
from the room (the leave handler did run) but leaves its matchmaking
queue entry in place — `leaveRoom` does not purge the queue. -/
theorem leaveRoom_queue_counterexample :
    (onLeaveRoom leaveStC6 7 "R1AAAA" 50).matchmakingQueue = [⟨7, "bob", 0⟩] ∧
    (getA (onLeaveRoom leaveStC6 7 "R1AAAA" 50).activeRooms "R1AAAA").map
        GameRoom.players = some [⟨3, "al"⟩] := by
  constructor
  · rfl
  · rfl

/-- C6 as amended: `leaveRoom` and transport close route to the same
unified leave handler (which performs the phase-dependent room handling
and never touches the matchmaking queue); the queue purge of the
connection's first entry is performed only by the `disconnect` handler,
before it invokes the leave handler. -/
theorem leaveRoom_routing_amended (st : ServerState) (sid : Nat) (code : String)
    (now : Nat) (conn : PlayerConn)
    (hc : getA st.playerSockets sid = some conn) :
    onLeaveRoom st sid code now = handlePlayerLeave st sid code now ∧
    (onLeaveRoom st sid code now).matchmakingQueue = st.matchmakingQueue ∧
    (onDisconnect st sid now).matchmakingQueue =
      removeFirstQueueEntry st.matchmakingQueue sid ∧
    (conn.roomCode = none →
      onDisconnect st sid now =
        { st with
            matchmakingQueue := removeFirstQueueEntry st.matchmakingQueue sid,
            playerSockets := delA st.playerSockets sid }) ∧
    (∀ rc, conn.roomCode = some rc →
      onDisconnect st sid now =
        { handlePlayerLeave
            { st with matchmakingQueue := removeFirstQueueEntry st.matchmakingQueue sid }
            sid rc now with
          playerSockets := delA
            (handlePlayerLeave
              { st with matchmakingQueue := removeFirstQueueEntry st.matchmakingQueue sid }
              sid rc now).playerSockets sid }) := by
  refine ⟨rfl, hpl_queue st sid code now, onDisconnect_queue st sid now conn hc, ?_, ?_⟩
  · intro hrc
    simp only [onDisconnect, hc, hrc]
  · intro rc hrc
    simp only [onDisconnect, hc, hrc]

/-- Witness for the amended C6 at the concrete state: `leaveRoom`
leaves the queue entry, `disconnect` removes it. -/
theorem leaveRoom_routing_amended_witness :
    (onLeaveRoom leaveStC6 7 "R1AAAA" 50).matchmakingQueue =
      leaveStC6.matchmakingQueue ∧
    (onDisconnect leaveStC6 7 50).matchmakingQueue = [] := by
  have h := leaveRoom_routing_amended leaveStC6 7 "R1AAAA" 50
    ⟨7, "bob", some "R1AAAA"⟩ (by rfl)
  exact ⟨h.2.1, h.2.2.1⟩

/-! ## Claim C7: stale matchmaking entries are evicted, notified, never matched -/

/-- C7: a queue entry `e` whose wait exceeds the 5-minute timeout and
whose connection is still live — in a FIFO queue, so entries ahead of
it are at least as old and hence also timed out — is removed from the
queue by the eviction pass of the next `findMatch` call, its
connection receives `matchmakingTimeout`, and the entry is never the
one matched into a room. -/
theorem stale_entry_evicted_notified_never_matched
    (st : ServerState) (sid : Nat) (uname : String) (now : Nat)
    (live : Nat → Bool) (newCode : String) (pre post : List MMEntry) (e : MMEntry)
    (hq : st.matchmakingQueue = pre ++ e :: post)
    (hfifo : ∀ x ∈ pre, x.joinedAt ≤ e.joinedAt)
    (he : now - e.joinedAt > MM_TIMEOUT_MS)
    (hlive : live e.socketId = true)
    (hpost : e ∉ post) :
    e ∉ (onFindMatch st sid uname now live newCode).1.matchmakingQueue ∧
    Emit.matchmakingTimeout e.socketId ∈ (onFindMatch st sid uname now live newCode).1.emitted ∧
    (onFindMatch st sid uname now live newCode).2 ≠ some e := by
  have hpre : ∀ x ∈ pre, live x.socketId = false ∨ now - x.joinedAt > MM_TIMEOUT_MS := by
    intro x hx
    right
    have hxa := hfifo x hx
    omega
  have hth := evictLoop_through live now pre post e hpre he hlive
  rw [← hq] at hth
  have hqmem : ∀ x ∈ (evictLoop live now st.matchmakingQueue).1, x ∈ post := by
    intro x hx
    rw [hth.1] at hx
    exact evictLoop_mem live now post x hx
  have hisold : e.joinedAt < now := by
    have := he
    unfold MM_TIMEOUT_MS at this
    omega
  have hreq : e ≠ ⟨sid, uname, now⟩ := by
    intro hcontr
    rw [hcontr] at hisold
    exact absurd hisold (by simp)
  have hemit : Emit.matchmakingTimeout e.socketId ∈
      st.emitted ++ (evictLoop live now st.matchmakingQueue).2 :=
    List.mem_append.mpr (Or.inr hth.2)
  unfold onFindMatch
  dsimp only
  cases hev : (evictLoop live now st.matchmakingQueue).1 with
  | nil =>
    dsimp only
    refine ⟨?_, ?_, ?_⟩
    · intro hmem
      exact hreq (List.mem_singleton.mp hmem)
    · simp only [emitTo]
      exact List.mem_append.mpr (Or.inl hemit)
    · simp
  | cons p1 rest =>
    have hp1 : p1 ∈ post := hqmem p1 (hev ▸ List.mem_cons_self _ _)
    have hrest : ∀ x ∈ rest, x ∈ post := fun x hx =>
      hqmem x (hev ▸ List.mem_cons_of_mem _ hx)
    have hne1 : p1 ≠ e := fun hcontr => hpost (hcontr ▸ hp1)
    have hnotmem : e ∉ rest := fun hmem => hpost (hrest e hmem)
    have hnotreq : e ∉ rest ++ [(⟨sid, uname, now⟩ : MMEntry)] := by
      intro hmem
      rcases List.mem_append.mp hmem with h1 | h2
      · exact hnotmem h1
      · exact hreq (List.mem_singleton.mp h2)
    dsimp only
    by_cases hl1 : live p1.socketId = false
    · rw [if_pos hl1]
      refine ⟨hnotreq, ?_, ?_⟩
      · simp only [emitTo]
        exact List.mem_append.mpr (Or.inl hemit)
      · simp
    · rw [if_neg hl1]
      by_cases hl2 : live p1.socketId ∧ live sid
      · rw [if_pos hl2]
        refine ⟨hnotmem, ?_, ?_⟩
        · exact List.mem_append.mpr (Or.inl hemit)
        · simp only [ne_eq, Option.some.injEq]
          exact fun hcontr => hne1 hcontr
      · rw [if_neg hl2]
        refine ⟨hnotreq, ?_, ?_⟩
        · simp only [emitTo]
          exact List.mem_append.mpr (Or.inl hemit)
        · simp

/-- Concrete state with one stale matchmaking entry (enqueued at time
0, observed at time 400000 > 5 minutes). -/
def staleQueueSt : ServerState :=
  { activeRooms := [], playerSockets := [(7, ⟨7, "old", none⟩)],
    matchmakingQueue := [⟨7, "old", 0⟩], users := [], matchLog := [],
    scheduledStarts := [], emitted := [] }

/-- Witness for C7 at the concrete state: the stale entry is gone from
the queue, its socket got `matchmakingTimeout`, and it was not the
matched entry. -/
theorem stale_entry_evicted_witness :
    (⟨7, "old", 0⟩ : MMEntry) ∉
      (onFindMatch staleQueueSt 9 "fresh" 400000 (fun _ => true) "MM0001").1.matchmakingQueue ∧
    Emit.matchmakingTimeout 7 ∈
      (onFindMatch staleQueueSt 9 "fresh" 400000 (fun _ => true) "MM0001").1.emitted ∧
    (onFindMatch staleQueueSt 9 "fresh" 400000 (fun _ => true) "MM0001").2 ≠
      some ⟨7, "old", 0⟩ := by
  exact stale_entry_evicted_notified_never_matched staleQueueSt 9 "fresh" 400000
    (fun _ => true) "MM0001" [] [] ⟨7, "old", 0⟩ rfl (by simp) (by decide) rfl
    (by simp)

/-! ## Claim C8: the stored win rate always matches the formula -/

/-- C8: if every stored user record satisfies the win-rate formula
(`winRate = wins / (gamesPlayed - draws) * 100` rounded to 2 decimals,
`0` when the denominator is 0), then after any `updateUserStats`
aggregation every stored user record still satisfies it — in
particular each user touched by the aggregation has their win rate
recomputed from their updated wins, games played and draws. -/
theorem winRate_formula_preserved (db : List (String × Stats))
    (results : List ResultEntry) (isDraw : Bool)
    (h : ∀ u s, getA db u = some s → WinRateOK s) :
    ∀ u s, getA (updateUserStats db results isDraw) u = some s → WinRateOK s := by
  unfold updateUserStats
  exact updateAux_winRateOK results db 0 isDraw h

/-- Concrete one-user store for the C8 witness. -/
def oneUserDB : List (String × Stats) := [("A", freshStats)]

/-- The stats record stored for `"A"` by the witness aggregation. -/
def aggregatedStats : Stats := statStep ⟨"A", 30, false⟩ 0 false freshStats

/-- Witness for C8: starting from a fresh record (win rate 0 with
denominator 0), one winning aggregation of score 30 stores a record
that satisfies the win-rate formula (here 1 win out of 1 counted
game). -/
theorem winRate_formula_preserved_witness :
    getA (updateUserStats oneUserDB [⟨"A", 30, false⟩] false) "A" =
      some aggregatedStats ∧
    aggregatedStats.wins = 1 ∧ aggregatedStats.gamesPlayed = 1 ∧
    aggregatedStats.draws = 0 ∧ WinRateOK aggregatedStats := by
  have hbase : ∀ u s, getA oneUserDB u = some s → WinRateOK s := by
    intro u s hus
    unfold oneUserDB getA at hus
    split at hus
    · cases hus
      decide
    · cases hus
  have hdone : getA (updateUserStats oneUserDB [⟨"A", 30, false⟩] false) "A" =
      some aggregatedStats := rfl
  exact ⟨hdone, by decide, by decide, by decide,
    winRate_formula_preserved oneUserDB [⟨"A", 30, false⟩] false hbase
      "A" _ hdone⟩

/-! ## Claim C3: mid-match disconnect resolves as an immediate forfeit -/

/-- C3: when a player leaves a 2-player room in `playing` phase, the
outcome broadcast and match record carry exactly
`[{remaining, current score}, {leaver, 0, disconnected}]` with the
remaining player as winner, the remaining player's `wins` increments
by 1 (their `losses` unchanged), and the leaver's `losses` increments
by 1 (their `wins` unchanged). -/
theorem forfeit_on_leave_while_playing
    (st : ServerState) (code : String) (now : Nat) (room : GameRoom)
    (p1 p2 : Player) (conn : PlayerConn) (s1 s2 : Stats)
    (hr : getA st.activeRooms code = some room)
    (hs : room.status = .playing)
    (hp : room.players = [p1, p2])
    (hsid : p1.socketId ≠ p2.socketId)
    (hc : getA st.playerSockets p2.socketId = some conn)
    (hcu : conn.username = p2.username)
    (hu : p1.username ≠ p2.username)
    (h1 : getA st.users p1.username = some s1)
    (h2 : getA st.users p2.username = some s2) :
    (handlePlayerLeave st p2.socketId code now).emitted =
      st.emitted ++ [.opponentDisconnected code
        [⟨p1.username, (getA room.scores p1.username).getD 0, false⟩,
         ⟨p2.username, 0, true⟩]
        ⟨p1.username, (getA room.scores p1.username).getD 0, false⟩] ∧
    (handlePlayerLeave st p2.socketId code now).matchLog =
      st.matchLog ++ [mkMatchRecord
        ({ room with
            timerActive := false, status := .finished,
            scores := setA room.scores p2.username 0 })
        [⟨p1.username, (getA room.scores p1.username).getD 0, false⟩,
         ⟨p2.username, 0, true⟩] false now] ∧
    (getA (handlePlayerLeave st p2.socketId code now).users p1.username).map
      Stats.wins = some (s1.wins + 1) ∧
    (getA (handlePlayerLeave st p2.socketId code now).users p1.username).map
      Stats.losses = some s1.losses ∧
    (getA (handlePlayerLeave st p2.socketId code now).users p2.username).map
      Stats.losses = some (s2.losses + 1) ∧
    (getA (handlePlayerLeave st p2.socketId code now).users p2.username).map
      Stats.wins = some s2.wins := by
  have hfind : room.players.find? (fun p => p.socketId ≠ p2.socketId) = some p1 := by
    rw [hp]
    exact List.find?_cons_of_pos _ (decide_eq_true hsid)
  have hlen : room.players.length = 2 := by
    rw [hp]
    rfl
  have heq := hpl_forfeit st p2.socketId code now room p1 conn hr hs hlen hfind hc
  rw [hcu] at heq
  rw [heq]
  have hpair := updateUserStats_pair st.users
    ⟨p1.username, (getA room.scores p1.username).getD 0, false⟩
    ⟨p2.username, 0, true⟩ false hu s1 s2 h1 h2
  refine ⟨rfl, rfl, ?_, ?_, ?_, ?_⟩
  · rw [hpair.1, Option.map_some', statStep_wins]
    rfl
  · rw [hpair.1, Option.map_some', statStep_losses]
    rfl
  · rw [hpair.2, Option.map_some', statStep_losses]
    rfl
  · rw [hpair.2, Option.map_some', statStep_wins]
    rfl

/-- Concrete playing room A(7) vs B(3) for the forfeit witness. -/
def forfeitRoom : GameRoom :=
  { roomCode := "RF0001", host := ⟨1, "A"⟩, players := [⟨1, "A"⟩, ⟨2, "B"⟩],
    maxPlayers := 2, status := .playing, gameStartTime := some 10,
    scores := [("A", 7), ("B", 3)], readyPlayers := [], timerActive := true,
    timeRemaining := 42 }

/-- Concrete state for the forfeit witness. -/
def forfeitSt : ServerState :=
  { activeRooms := [("RF0001", forfeitRoom)],
    playerSockets := [(1, ⟨1, "A", some "RF0001"⟩), (2, ⟨2, "B", some "RF0001"⟩)],
    matchmakingQueue := [], users := [("A", freshStats), ("B", freshStats)],
    matchLog := [], scheduledStarts := [], emitted := [] }

/-- Witness for C3: B (score 3) disconnects from the A(7)-B(3) playing
room; the result list is `[{A,7},{B,0,disconnected}]`, A wins (+1 win,
0 losses), B gets +1 loss (0 wins). -/
theorem forfeit_on_leave_while_playing_witness :
    (handlePlayerLeave forfeitSt 2 "RF0001" 99).emitted =
      [.opponentDisconnected "RF0001"
        [⟨"A", 7, false⟩, ⟨"B", 0, true⟩] ⟨"A", 7, false⟩] ∧
    (getA (handlePlayerLeave forfeitSt 2 "RF0001" 99).users "A").map
      Stats.wins = some 1 ∧
    (getA (handlePlayerLeave forfeitSt 2 "RF0001" 99).users "A").map
      Stats.losses = some 0 ∧
    (getA (handlePlayerLeave forfeitSt 2 "RF0001" 99).users "B").map
      Stats.losses = some 1 ∧
    (getA (handlePlayerLeave forfeitSt 2 "RF0001" 99).users "B").map
      Stats.wins = some 0 := by
  have h := forfeit_on_leave_while_playing forfeitSt "RF0001" 99 forfeitRoom
    ⟨1, "A"⟩ ⟨2, "B"⟩ ⟨2, "B", some "RF0001"⟩ freshStats freshStats
    rfl rfl rfl (by decide) rfl rfl (by decide) rfl rfl
  exact ⟨h.1, h.2.2.1, h.2.2.2.1, h.2.2.2.2.1, h.2.2.2.2.2⟩

/-! ## Claim C4: draw and winner determination at match end -/

/-- C4: when the clock-expiry transition fires for a playing room whose
sorted results have at least two entries: if the top two scores are
equal the outcome is a draw (`isDraw = true`, `winner = null`) and
every player with a stored record gets `draws + 1` with `wins` and
`losses` unchanged; otherwise the top scorer is the winner
(`wins + 1`, others unchanged) and every later entry is a loser
(`losses + 1`, `wins` unchanged). -/
theorem endGame_draw_or_winner
    (st : ServerState) (code : String) (now : Nat) (room : GameRoom)
    (r0 r1 : ResultEntry) (rest : List ResultEntry)
    (hr : getA st.activeRooms code = some room)
    (hs : room.status = .playing)
    (hres : room.getResults = r0 :: r1 :: rest)
    (hnd : ((r0 :: r1 :: rest).map (fun r => r.username)).Nodup) :
    (r0.score = r1.score →
      (endGame st code now).emitted =
        st.emitted ++ [.gameOver code (r0 :: r1 :: rest) none true] ∧
      (∃ rec, (endGame st code now).matchLog = st.matchLog ++ [rec] ∧
        rec.isDraw = true ∧ rec.winner = none) ∧
      (∀ i (hi : i < (r0 :: r1 :: rest).length) s,
        getA st.users ((r0 :: r1 :: rest).get ⟨i, hi⟩).username = some s →
        (getA (endGame st code now).users
            ((r0 :: r1 :: rest).get ⟨i, hi⟩).username).map Stats.draws =
          some (s.draws + 1) ∧
        (getA (endGame st code now).users
            ((r0 :: r1 :: rest).get ⟨i, hi⟩).username).map Stats.wins = some s.wins ∧
        (getA (endGame st code now).users
            ((r0 :: r1 :: rest).get ⟨i, hi⟩).username).map Stats.losses =
          some s.losses)) ∧
    (r0.score ≠ r1.score →
      (endGame st code now).emitted =
        st.emitted ++ [.gameOver code (r0 :: r1 :: rest) (some r0) false] ∧
      (∃ rec, (endGame st code now).matchLog = st.matchLog ++ [rec] ∧
        rec.isDraw = false ∧ rec.winner = some r0.username) ∧
      (∀ s, getA st.users r0.username = some s →
        (getA (endGame st code now).users r0.username).map Stats.wins =
          some (s.wins + 1) ∧
        (getA (endGame st code now).users r0.username).map Stats.draws = some s.draws ∧
        (getA (endGame st code now).users r0.username).map Stats.losses =
          some s.losses) ∧
      (∀ i (hi : i < (r0 :: r1 :: rest).length), 0 < i → ∀ s,
        getA st.users ((r0 :: r1 :: rest).get ⟨i, hi⟩).username = some s →
        (getA (endGame st code now).users
            ((r0 :: r1 :: rest).get ⟨i, hi⟩).username).map Stats.losses =
          some (s.losses + 1) ∧
        (getA (endGame st code now).users
            ((r0 :: r1 :: rest).get ⟨i, hi⟩).username).map Stats.wins =
          some s.wins)) := by
  have hsf : ¬ room.status = .finished := by
    rw [hs]
    intro hcontr
    cases hcontr
  have heq := endGame_eq st code now room hr hsf
  constructor
  · intro hdraw
    have hdrawb : isDrawOf room.getResults = true := by
      rw [hres]
      unfold isDrawOf
      simp [hdraw]
    refine ⟨?_, ?_, ?_⟩
    · rw [heq, hdrawb, hres]
      rfl
    · refine ⟨_, by rw [heq], ?_, ?_⟩
      · unfold mkMatchRecord
        rw [hdrawb]
      · unfold mkMatchRecord
        rw [hdrawb]
        rfl
    · intro i hi s hus
      have hget := updateAux_get (r0 :: r1 :: rest) hnd i hi st.users 0 true
      rw [hus, Option.map_some'] at hget
      have husers : (endGame st code now).users =
          updateUserStats st.users (r0 :: r1 :: rest) true := by
        rw [heq]
        show updateUserStats st.users room.getResults (isDrawOf room.getResults) = _
        rw [hres, ← hres, hdrawb, hres]
      rw [husers]
      unfold updateUserStats
      rw [hget, Option.map_some', Option.map_some', Option.map_some',
        statStep_draws, statStep_wins, statStep_losses]
      refine ⟨rfl, ?_, ?_⟩
      · simp
      · simp
  · intro hne
    have hdrawb : isDrawOf room.getResults = false := by
      rw [hres]
      unfold isDrawOf
      simp [hne]
    refine ⟨?_, ?_, ?_, ?_⟩
    · rw [heq, hdrawb, hres]
      rfl
    · refine ⟨_, by rw [heq], ?_, ?_⟩
      · unfold mkMatchRecord
        rw [hdrawb]
      · unfold mkMatchRecord
        rw [hdrawb, hres]
        rfl
    · intro s hus
      have hget := updateAux_get (r0 :: r1 :: rest) hnd 0 (by simp) st.users 0 false
      have hzero : ((r0 :: r1 :: rest).get ⟨0, by simp⟩) = r0 := rfl
      rw [hzero, hus, Option.map_some'] at hget
      have husers : (endGame st code now).users =
          updateUserStats st.users (r0 :: r1 :: rest) false := by
        rw [heq]
        show updateUserStats st.users room.getResults (isDrawOf room.getResults) = _
        rw [hres, ← hres, hdrawb, hres]
      rw [husers]
      unfold updateUserStats
      rw [hget, Option.map_some', Option.map_some', Option.map_some',
        statStep_wins, statStep_draws, statStep_losses]
      refine ⟨by simp, rfl, by simp⟩
    · intro i hi hipos s hus
      have hget := updateAux_get (r0 :: r1 :: rest) hnd i hi st.users 0 false
      rw [hus, Option.map_some'] at hget
      have husers : (endGame st code now).users =
          updateUserStats st.users (r0 :: r1 :: rest) false := by
        rw [heq]
        show updateUserStats st.users room.getResults (isDrawOf room.getResults) = _
        rw [hres, ← hres, hdrawb, hres]
      rw [husers]
      unfold updateUserStats
      rw [hget, Option.map_some', Option.map_some', statStep_losses, statStep_wins]
      have hine : ¬ (0 + i = 0) := by omega
      refine ⟨?_, ?_⟩
      · rw [if_pos ⟨rfl, hine⟩]
      · rw [if_neg (fun hc => hine hc.2)]

/-- Concrete playing room with tied scores A(5), B(5). -/
def tieRoom : GameRoom :=
  { roomCode := "TIED01", host := ⟨1, "A"⟩, players := [⟨1, "A"⟩, ⟨2, "B"⟩],
    maxPlayers := 2, status := .playing, gameStartTime := some 10,
    scores := [("A", 5), ("B", 5)], readyPlayers := [], timerActive := true,
    timeRemaining := 0 }

/-- Concrete state for the exact-tie witness. -/
def tieSt : ServerState :=
  { activeRooms := [("TIED01", tieRoom)],
    playerSockets := [(1, ⟨1, "A", some "TIED01"⟩), (2, ⟨2, "B", some "TIED01"⟩)],
    matchmakingQueue := [], users := [("A", freshStats), ("B", freshStats)],
    matchLog := [], scheduledStarts := [], emitted := [] }

/-- Witness for C4 (exact-tie scenario): A(5), B(5), clock reaches 0:
`isDraw = true`, `winner = null`, both get `draws + 1`, neither `wins`
nor `losses` increments. -/
theorem endGame_draw_or_winner_witness :
    (endGame tieSt "TIED01" 99).emitted =
      [.gameOver "TIED01" [⟨"A", 5, false⟩, ⟨"B", 5, false⟩] none true] ∧
    (endGame tieSt "TIED01" 99).matchLog.map MatchRecord.isDraw = [true] ∧
    (endGame tieSt "TIED01" 99).matchLog.map MatchRecord.winner = [none] ∧
    (getA (endGame tieSt "TIED01" 99).users "A").map Stats.draws = some 1 ∧
    (getA (endGame tieSt "TIED01" 99).users "A").map Stats.wins = some 0 ∧
    (getA (endGame tieSt "TIED01" 99).users "A").map Stats.losses = some 0 ∧
    (getA (endGame tieSt "TIED01" 99).users "B").map Stats.draws = some 1 ∧
    (getA (endGame tieSt "TIED01" 99).users "B").map Stats.wins = some 0 ∧
    (getA (endGame tieSt "TIED01" 99).users "B").map Stats.losses = some 0 := by
  obtain ⟨hem, ⟨rec, hml, hdr, hwin⟩, hstats⟩ :=
    (endGame_draw_or_winner tieSt "TIED01" 99 tieRoom
      ⟨"A", 5, false⟩ ⟨"B", 5, false⟩ []
      rfl rfl rfl (by decide)).1 rfl
  have hA := hstats 0 (by decide) freshStats rfl
  have hB := hstats 1 (by decide) freshStats rfl
  refine ⟨hem, ?_, ?_, hA.1, hA.2.1, hA.2.2, hB.1, hB.2.1, hB.2.2⟩
  · rw [hml]
    simp [hdr, tieSt]
  · rw [hml]
    simp [hwin, tieSt]

/-! ## Claim C1: terminal match logic executes at most once per room -/

/-- C1: for a playing 2-player room, running the clock-expiry
transition (`endGame`) and the disconnect forfeit
(`handlePlayerLeave`) in either order appends exactly one match record
in total and applies exactly one stats update per user in total
(each player's `gamesPlayed` rises by exactly 1): whichever terminal
transition runs second sees `status = 'finished'` and performs no
second aggregation. -/
theorem terminal_transition_at_most_once
    (st : ServerState) (code : String) (tEnd tLeave : Nat) (room : GameRoom)
    (p1 p2 : Player) (conn : PlayerConn) (s1 s2 : Stats)
    (hr : getA st.activeRooms code = some room)
    (hs : room.status = .playing)
    (hp : room.players = [p1, p2])
    (hsid : p1.socketId ≠ p2.socketId)
    (hc : getA st.playerSockets p2.socketId = some conn)
    (hcu : conn.username = p2.username)
    (hu : p1.username ≠ p2.username)
    (h1 : getA st.users p1.username = some s1)
    (h2 : getA st.users p2.username = some s2) :
    (handlePlayerLeave (endGame st code tEnd) p2.socketId code tLeave).matchLog.length
      = st.matchLog.length + 1 ∧
    (endGame (handlePlayerLeave st p2.socketId code tLeave) code tEnd).matchLog.length
      = st.matchLog.length + 1 ∧
    (getA (handlePlayerLeave (endGame st code tEnd) p2.socketId code tLeave).users
        p1.username).map Stats.gamesPlayed = some (s1.gamesPlayed + 1) ∧
    (getA (handlePlayerLeave (endGame st code tEnd) p2.socketId code tLeave).users
        p2.username).map Stats.gamesPlayed = some (s2.gamesPlayed + 1) ∧
    (getA (endGame (handlePlayerLeave st p2.socketId code tLeave) code tEnd).users
        p1.username).map Stats.gamesPlayed = some (s1.gamesPlayed + 1) ∧
    (getA (endGame (handlePlayerLeave st p2.socketId code tLeave) code tEnd).users
        p2.username).map Stats.gamesPlayed = some (s2.gamesPlayed + 1) := by
  have hsf : ¬ room.status = .finished := by
    rw [hs]
    intro hcontr
    cases hcontr
  -- the two sorted-results shapes for a 2-player room
  have hresor : room.getResults =
        [⟨p1.username, (getA room.scores p1.username).getD 0, false⟩,
         ⟨p2.username, (getA room.scores p2.username).getD 0, false⟩] ∨
      room.getResults =
        [⟨p2.username, (getA room.scores p2.username).getD 0, false⟩,
         ⟨p1.username, (getA room.scores p1.username).getD 0, false⟩] := by
    have hform : room.getResults =
        insertDesc ⟨p1.username, (getA room.scores p1.username).getD 0, false⟩
          [⟨p2.username, (getA room.scores p2.username).getD 0, false⟩] := by
      unfold GameRoom.getResults
      rw [hp]
      rfl
    rw [hform]
    unfold insertDesc
    by_cases hgt : (⟨p2.username, (getA room.scores p2.username).getD 0, false⟩ :
        ResultEntry).score > (⟨p1.username, (getA room.scores p1.username).getD 0,
        false⟩ : ResultEntry).score
    · rw [if_pos hgt]
      right
      rfl
    · rw [if_neg hgt]
      left
      rfl
  -- one aggregation pass bumps each player's gamesPlayed by exactly 1
  have hupd : ∀ d : Bool,
      (getA (updateUserStats st.users room.getResults d) p1.username).map
        Stats.gamesPlayed = some (s1.gamesPlayed + 1) ∧
      (getA (updateUserStats st.users room.getResults d) p2.username).map
        Stats.gamesPlayed = some (s2.gamesPlayed + 1) := by
    intro d
    rcases hresor with hform | hform <;> rw [hform]
    · have hpair := updateUserStats_pair st.users
        ⟨p1.username, (getA room.scores p1.username).getD 0, false⟩
        ⟨p2.username, (getA room.scores p2.username).getD 0, false⟩ d hu s1 s2 h1 h2
      constructor
      · rw [hpair.1, Option.map_some', statStep_gamesPlayed]
      · rw [hpair.2, Option.map_some', statStep_gamesPlayed]
    · have hpair := updateUserStats_pair st.users
        ⟨p2.username, (getA room.scores p2.username).getD 0, false⟩
        ⟨p1.username, (getA room.scores p1.username).getD 0, false⟩ d
        (fun hcontr => hu hcontr.symm) s2 s1 h2 h1
      constructor
      · rw [hpair.2, Option.map_some', statStep_gamesPlayed]
      · rw [hpair.1, Option.map_some', statStep_gamesPlayed]
  -- order A: clock expiry first, then the leave
  have heg := endGame_eq st code tEnd room hr hsf
  have hgetE : getA (endGame st code tEnd).activeRooms code =
      some ({ room with status := .finished, timerActive := false }) := by
    rw [heg]
    exact getA_setA_self _ _ _
  have hguardE : ¬ (({ room with status := .finished, timerActive := false } :
      GameRoom).status = .playing ∧
      ({ room with status := .finished, timerActive := false } :
        GameRoom).players.length = 2) := by
    intro hcontr
    cases hcontr.1
  have hfilE : ¬ ((({ room with status := .finished, timerActive := false } :
      GameRoom).players.filter (fun p => p.socketId ≠ p2.socketId)).length = 0) := by
    show ¬ ((room.players.filter (fun p => p.socketId ≠ p2.socketId)).length = 0)
    rw [hp]
    simp [hsid]
  have hA := hpl_else (endGame st code tEnd) p2.socketId code tLeave
    ({ room with status := .finished, timerActive := false }) hgetE hguardE hfilE
  -- order B: the leave first, then clock expiry
  have hfind : room.players.find? (fun p => p.socketId ≠ p2.socketId) = some p1 := by
    rw [hp]
    exact List.find?_cons_of_pos _ (decide_eq_true hsid)
  have hlen : room.players.length = 2 := by
    rw [hp]
    rfl
  have hB := hpl_forfeit st p2.socketId code tLeave room p1 conn hr hs hlen hfind hc
  rw [hcu] at hB
  have hgetL : getA (handlePlayerLeave st p2.socketId code tLeave).activeRooms code =
      some ({ room with
        timerActive := false, status := .finished,
        scores := setA room.scores p2.username 0 }) := by
    rw [hB]
    exact getA_setA_self _ _ _
  have hB2 := endGame_finished (handlePlayerLeave st p2.socketId code tLeave) code
    tEnd _ hgetL rfl
  have hpairB := updateUserStats_pair st.users
    ⟨p1.username, (getA room.scores p1.username).getD 0, false⟩
    ⟨p2.username, 0, true⟩ false hu s1 s2 h1 h2
  refine ⟨?_, ?_, ?_, ?_, ?_, ?_⟩
  · rw [hA, heg]
    simp
  · rw [hB2, hB]
    simp
  · rw [hA, heg]
    exact (hupd _).1
  · rw [hA, heg]
    exact (hupd _).2
  · rw [hB2, hB]
    show (getA (updateUserStats st.users _ false) p1.username).map Stats.gamesPlayed = _
    rw [hpairB.1, Option.map_some', statStep_gamesPlayed]
  · rw [hB2, hB]
    show (getA (updateUserStats st.users _ false) p2.username).map Stats.gamesPlayed = _
    rw [hpairB.2, Option.map_some', statStep_gamesPlayed]

/-- Witness for C1 at the concrete A(7)-B(3) playing room: clock expiry
and B's disconnect, interleaved in both orders, yield exactly one match
record and exactly one `gamesPlayed` increment per user. -/
theorem terminal_transition_at_most_once_witness :
    (handlePlayerLeave (endGame forfeitSt "RF0001" 98) 2 "RF0001" 99).matchLog.length
      = 1 ∧
    (endGame (handlePlayerLeave forfeitSt 2 "RF0001" 99) "RF0001" 98).matchLog.length
      = 1 ∧
    (getA (handlePlayerLeave (endGame forfeitSt "RF0001" 98) 2 "RF0001" 99).users
        "A").map Stats.gamesPlayed = some 1 ∧
    (getA (endGame (handlePlayerLeave forfeitSt 2 "RF0001" 99) "RF0001" 98).users
        "B").map Stats.gamesPlayed = some 1 := by
  have h := terminal_transition_at_most_once forfeitSt "RF0001" 98 99 forfeitRoom
    ⟨1, "A"⟩ ⟨2, "B"⟩ ⟨2, "B", some "RF0001"⟩ freshStats freshStats
    rfl rfl rfl (by decide) rfl rfl (by decide) rfl rfl
  exact ⟨h.1, h.2.1, h.2.2.1, h.2.2.2.2.2⟩
